import Mathlib

/-!
Shallow embedding of the `intuit` Go client library (files `client.go`,
`intuit.go`, `saml.go`) and proofs about the SAML assertion construction,
token exchange, and MFA challenge-session subsystem.

Modelling conventions:
* Go byte slices are `List Nat` (each entry a byte value `< 256`).
* A Go runtime panic (failed type assertion, nil-pointer dereference,
  out-of-range index, explicit `panic(...)`) is modelled by a distinguished
  outcome (`Option.none` for internal helpers, or an explicit `panic`
  constructor of the relevant outcome type): the function does not return.
* External collaborators (HTTP transport, PEM/RSA primitives, the UUID
  generator) are inputs of the embedded functions: the embedding covers the
  control flow the repository's own code performs on their results.
* `time.Time` instants are modelled at second granularity as seconds since
  the Unix epoch (`Nat`); the Go code formats times with a layout whose
  sub-second part is the literal `.000`, so nothing below one second is
  observable in the fields under study.
-/

namespace Intuit

/-! ## Basic data model (intuit.go) -/

/-- `oauth.AccessToken` as used by `MakeSamlAssertion` (fields Token, Secret). -/
structure AccessToken where
  token : String
  secret : String
deriving DecidableEq

/-- The two challenge context tags (`updateLoginType`, `discoverAndAddType`,
intuit.go lines 23-24). -/
inductive ChallengeContextType where
  | updateLogin
  | discoverAndAdd
deriving DecidableEq

/-- `Choice` (intuit.go). The Go field `Value` is declared `interface` but the
parser only ever stores a `string` in it (`cData["val"].(string)`), so it is
modelled as `String`. -/
structure Choice where
  value : String
  text : String
deriving DecidableEq

/-- `Challenge` (intuit.go): a question together with its ordered choices. -/
structure Challenge where
  question : String
  choices : List Choice
deriving DecidableEq

/-- `ChallengeSession` (intuit.go). `answers` models the caller-filled
`Answers []interface` slice. -/
structure ChallengeSession where
  institutionId : String
  loginId : String
  sessionId : String
  nodeId : String
  challenges : List Challenge
  answers : List String
  contextType : ChallengeContextType
deriving DecidableEq

/-! ## JSON values as decoded by encoding/json into `interface` values

`client.go` decodes response bodies with `json.Decoder.Decode` after
`UseNumber()`, producing `nil`, `bool`, `json.Number`, `string`,
`[]interface` and `map[string]interface` values.  Objects are modelled as
association lists; the embedding iterates them in list order (Go map
iteration order is unspecified, but every claim proved below only involves
objects with a single field wherever iteration order could matter). -/

inductive JValue where
  | null
  | boolean (b : Bool)
  | number (repr : String)
  | str (s : String)
  | arr (elems : List JValue)
  | obj (fields : List (String × JValue))

/-- Go type assertion `v.(map[string]interface)`: panics (`none`) unless the
value is an object. -/
def asObj : JValue → Option (List (String × JValue))
  | .obj fields => some fields
  | _ => none

/-- Go type assertion `v.([]interface)`. -/
def asArr : JValue → Option (List JValue)
  | .arr elems => some elems
  | _ => none

/-- Go type assertion `v.(string)`. -/
def asStr : JValue → Option String
  | .str s => some s
  | _ => none

/-- Go map indexing `m[k]`: a missing key yields the `nil` interface value. -/
def jGet (fields : List (String × JValue)) (k : String) : JValue :=
  match fields.find? (fun p => p.1 == k) with
  | some p => p.2
  | none => .null

/-- `http.Header.Get`: the first value stored under the (canonicalized)
header key, or `""` when the header is absent. -/
def headerGet (hs : List (String × String)) (k : String) : String :=
  match hs.find? (fun p => p.1 == k) with
  | some p => p.2
  | none => ""

/-- `Option`-propagating map over a list (`none` models the first panic
encountered while iterating, which aborts the whole computation). -/
def mapOpt (f : α → Option β) : List α → Option (List β)
  | [] => some []
  | a :: rest =>
    match f a with
    | none => none
    | some b =>
      match mapOpt f rest with
      | none => none
      | some bs => some (b :: bs)

/-! ## parseChallengeSession (intuit.go lines 273-307) -/

/-- One choice entry (loop body for `i > 0` in `parseChallengeSession`):
`cData := val.(map[string]interface)`, then
`Choice{Value: cData["val"].(string), Text: cData["text"].(string)}`.
Any failed assertion is a panic (`none`). -/
def parseChoice (v : JValue) : Option Choice :=
  match asObj v with
  | none => none
  | some cData =>
    match asStr (jGet cData "val") with
    | none => none
    | some value =>
      match asStr (jGet cData "text") with
      | none => none
      | some text => some ⟨value, text⟩

/-- The inner `for i, val := range vData` loop: element 0 is asserted to be
the question string, later elements are parsed as choices in order.  An
empty `vData` leaves the zero-valued `Challenge` (empty question, no
choices), exactly as the Go loop body never runs. -/
def parseGroupValue : List JValue → Option Challenge
  | [] => some ⟨"", []⟩
  | q :: rest =>
    match asStr q with
    | none => none
    | some question =>
      match mapOpt parseChoice rest with
      | none => none
      | some choices => some ⟨question, choices⟩

/-- One entry of the `for _, v := range chal` loop over a challenge-group
object: `vData := v.([]interface)` then the element loop. -/
def parseGroupEntry (kv : String × JValue) : Option Challenge :=
  match asArr kv.2 with
  | none => none
  | some vData => parseGroupValue vData

/-- One iteration of the outer `for _, c := range challenges` loop:
`chal := c.(map[string]interface)`, then one appended `Challenge` per
entry of that map. -/
def parseGroup (c : JValue) : Option (List Challenge) :=
  match asObj c with
  | none => none
  | some chal => mapOpt parseGroupEntry chal

/-- Result of running `parseChallengeSession`: either a fully built session
or a Go runtime panic from one of its unchecked type assertions. -/
inductive ParseOutcome where
  | session (s : ChallengeSession)
  | typeAssertionPanic
deriving DecidableEq

/-- `parseChallengeSession(contextType, data, err)` (intuit.go lines
273-307).  `responseHeaders` stands for `err.(oauth.HTTPExecuteError)
.ResponseHeaders`; `data` is the decoded JSON error body.  Every unchecked
Go type assertion is modelled as a potential panic. -/
def parseChallengeSession (contextType : ChallengeContextType)
    (data : JValue) (responseHeaders : List (String × String)) : ParseOutcome :=
  match asObj data with
  | none => .typeAssertionPanic
  | some challengeData =>
    match asArr (jGet challengeData "challenge") with
    | none => .typeAssertionPanic
    | some challenges =>
      match mapOpt parseGroup challenges with
      | none => .typeAssertionPanic
      | some groups =>
        .session
          { institutionId := ""
            loginId := ""
            sessionId := headerGet responseHeaders "Challengesessionid"
            nodeId := headerGet responseHeaders "Challengenodeid"
            challenges := groups.flatten
            answers := []
            contextType := contextType }

/-! ## RespondToChallenge (intuit.go lines 169-190) -/

/-- `ChallengeResponse` (intuit.go).  `answer` models the `Answer
interface` field; the zero value has `none`. -/
structure ChallengeResponse (α : Type) where
  xmlns : String
  answer : Option α
deriving DecidableEq

/-- `ChallengeXMLNS` (intuit.go line 15). -/
def ChallengeXMLNS : String :=
  "http://schema.intuit.com/platform/fdatafeed/challenge/v1"

/-- The zero value `ChallengeResponse{}` produced by `make([]ChallengeResponse, n)`. -/
def zeroChallengeResponse {α : Type} : ChallengeResponse α := ⟨"", none⟩

/-- The loop body `ChallengeResponse{Answer: r, XMLNS: ChallengeXMLNS}`. -/
def filledChallengeResponse {α : Type} (r : α) : ChallengeResponse α :=
  ⟨ChallengeXMLNS, some r⟩

/-- Go slice store `xs[i] = a`: panics (`none`) when `i` is out of range. -/
def setAt {α : Type} : List α → Nat → α → Option (List α)
  | [], _, _ => none
  | _ :: xs, 0, a => some (a :: xs)
  | x :: xs, n + 1, a =>
    match setAt xs n a with
    | none => none
    | some ys => some (x :: ys)

/-- The `for i, r := range session.Answers` loop of `RespondToChallenge`,
filling `responses[i]` positionally. -/
def fillAnswers {α : Type} :
    List (ChallengeResponse α) → Nat → List α → Option (List (ChallengeResponse α))
  | rs, _, [] => some rs
  | rs, i, a :: rest =>
    match setAt rs i (filledChallengeResponse a) with
    | none => none
    | some rs2 => fillAnswers rs2 (i + 1) rest

/-- The response-list construction of `RespondToChallenge` (intuit.go lines
170-173): `responses := make([]ChallengeResponse, len(session.Challenges))`
followed by the positional fill loop.  `none` models the index-out-of-range
panic raised when there are more answers than challenges. -/
def respondResponseList {α : Type} (challenges : List Challenge) (answers : List α) :
    Option (List (ChallengeResponse α)) :=
  fillAnswers (List.replicate challenges.length zeroChallengeResponse) 0 answers

/-! ## URL query decoding (net/url, as used by saml.go lines 73 and 77-80)

`url.QueryUnescape` / `url.ParseQuery` are standard-library collaborators;
they are embedded here because `MakeSamlAssertion`'s observable behaviour
(the error message and the extracted token fields) is their output. -/

/-- Value of an ASCII hex digit, `none` otherwise (cf. `url.ishex`/`unhex`). -/
def hexDigitVal (c : Char) : Option Nat :=
  if 48 ≤ c.toNat ∧ c.toNat ≤ 57 then some (c.toNat - 48)
  else if 65 ≤ c.toNat ∧ c.toNat ≤ 70 then some (c.toNat - 55)
  else if 97 ≤ c.toNat ∧ c.toNat ≤ 102 then some (c.toNat - 87)
  else none

/-- `url.QueryUnescape` on the character list of a string: `%XX` becomes the
byte `XX`, `+` becomes a space, anything else passes through; a malformed
percent escape is an error (`none`). -/
def unescapeChars : List Char → Option (List Char)
  | [] => some []
  | '%' :: a :: b :: rest =>
    match hexDigitVal a, hexDigitVal b with
    | some hi, some lo =>
      match unescapeChars rest with
      | none => none
      | some out => some (Char.ofNat (hi * 16 + lo) :: out)
    | _, _ => none
  | '%' :: _ => none
  | '+' :: rest =>
    match unescapeChars rest with
    | none => none
    | some out => some (' ' :: out)
  | c :: rest =>
    match unescapeChars rest with
    | none => none
    | some out => some (c :: out)

/-- `url.QueryUnescape`. -/
def queryUnescape (s : String) : Option String :=
  (unescapeChars s.data).map String.mk

/-- `strings.Cut(seg, "=")`: split at the first `=`; without one the whole
segment is the key and the value is empty. -/
def cutEq : List Char → List Char × List Char
  | [] => ([], [])
  | '=' :: rest => ([], rest)
  | c :: rest =>
    let p := cutEq rest
    (c :: p.1, p.2)

/-- Split a query string at every `&` (the segment separator used by
`url.ParseQuery`). -/
def splitAmp : List Char → List (List Char)
  | [] => [[]]
  | '&' :: rest => [] :: splitAmp rest
  | c :: rest =>
    match splitAmp rest with
    | [] => [[c]]
    | g :: gs => (c :: g) :: gs

/-- `url.ParseQuery`, as invoked with its error discarded (saml.go line 78):
pairs are collected in encounter order; empty segments and segments whose
key or value fails to unescape are skipped (the partial result is still
returned by the Go function alongside the error the caller drops). -/
def parseQueryPairs (s : String) : List (String × String) :=
  (splitAmp s.data).filterMap fun seg =>
    match seg with
    | [] => none
    | _ =>
      let p := cutEq seg
      match unescapeChars p.1, unescapeChars p.2 with
      | some k, some v => some (String.mk k, String.mk v)
      | _, _ => none

/-- `url.Values.Get`: first value recorded for the key, `""` when absent. -/
def formGet (pairs : List (String × String)) (k : String) : String :=
  match pairs.find? (fun p => p.1 == k) with
  | some p => p.2
  | none => ""

/-! ## MakeSamlAssertion: response handling (saml.go lines 69-84) -/

/-- An `*http.Response` as far as the code under study reads it. -/
structure HttpResp where
  statusCode : Nat
  status : String
  headers : List (String × String)
  body : String
deriving DecidableEq

/-- What `MakeSamlAssertion` does after `http.PostForm` returns: either the
`(tokens, err)` pair it returns, or a nil-pointer-dereference panic. -/
inductive ExchangeOutcome where
  | result (tokens : AccessToken) (err : Option String)
  | nilDereferencePanic
deriving DecidableEq

/-- The tail of `MakeSamlAssertion` (saml.go lines 69-84), starting from the
`resp, err := http.PostForm(...)` results.  When `resp` is `nil` (the
transport-failure case) the error branch reads `resp.Header` and
`resp.Status`, a nil dereference.  Otherwise, on `err != nil` or a non-200
status it builds the diagnostic message from the status line and the
URL-decoded `Www-Authenticate` header (decode failure leaves that part
empty, the error being discarded); on 200 it parses the body as a query
string and reads `oauth_token` / `oauth_token_secret`.  In every non-panic
path the returned token pointer is the freshly allocated (possibly
zero-valued) `tokens`. -/
def handleTokenResponse (err : Option String) (resp : Option HttpResp) :
    ExchangeOutcome :=
  match resp with
  | none => .nilDereferencePanic
  | some r =>
    if err.isSome || r.statusCode != 200 then
      .result ⟨"", ""⟩
        (some (r.status ++ " " ++
          ((queryUnescape (headerGet r.headers "Www-Authenticate")).getD "")))
    else
      .result ⟨formGet (parseQueryPairs r.body) "oauth_token",
               formGet (parseQueryPairs r.body) "oauth_token_secret"⟩ none

/-! ## request: lazy token acquisition (client.go lines 19-26) -/

/-- The token slot of the package-global `SessionConfiguration`
(`oAuthToken *oauth.AccessToken`; `none` is the nil pointer). -/
structure SessionState where
  oAuthToken : Option AccessToken
deriving DecidableEq

/-- The token-acquisition phase at the top of `request` (client.go lines
20-26): when the stored token pointer is nil, call `MakeSamlAssertion`,
assign whatever pointer it returns into the configuration, and abort the
request if it also returned an error.  The result is `none` on a panic
inside the exchange, otherwise the updated state, whether an acquisition
was attempted, and the error (if any) returned to the caller. -/
def requestTokenPhase (st : SessionState) (exchange : ExchangeOutcome) :
    Option (SessionState × Bool × Option String) :=
  match st.oAuthToken with
  | some _ => some (st, false, none)
  | none =>
    match exchange with
    | .nilDereferencePanic => none
    | .result tokens err => some ({ oAuthToken := some tokens }, true, err)

/-! ## SHA-1 (crypto/sha1, as called by sha1Encode in saml.go) -/

/-- 2 to the 32nd, the word modulus of SHA-1. -/
def pow32 : Nat := 4294967296

/-- Rotate a 32-bit word (a `Nat` below `pow32`) left by `s`. -/
def rotl (s x : Nat) : Nat := (x * 2 ^ s + x / 2 ^ (32 - s)) % pow32

/-- The SHA-1 round function for round `t`. -/
def sha1F (t b c d : Nat) : Nat :=
  if t < 20 then (b &&& c) ||| ((pow32 - 1 - b) &&& d)
  else if t < 40 then b ^^^ c ^^^ d
  else if t < 60 then (b &&& c) ||| (b &&& d) ||| (c &&& d)
  else b ^^^ c ^^^ d

/-- The SHA-1 round constant for round `t`. -/
def sha1K (t : Nat) : Nat :=
  if t < 20 then 0x5A827999
  else if t < 40 then 0x6ED9EBA1
  else if t < 60 then 0x8F1BBCDC
  else 0xCA62C1D6

/-- Big-endian 4-byte grouping of a byte list into 32-bit words. -/
def bytesToWords : List Nat → List Nat
  | b1 :: b2 :: b3 :: b4 :: rest =>
    (((b1 * 256 + b2) * 256 + b3) * 256 + b4) :: bytesToWords rest
  | _ => []

/-- Big-endian bytes of a 32-bit word. -/
def wordBytes (w : Nat) : List Nat :=
  [w / 2 ^ 24 % 256, w / 2 ^ 16 % 256, w / 2 ^ 8 % 256, w % 256]

/-- Message-schedule extension: grow the 16 block words to `acc.length + n`
words,`w[i] = rotl1(w[i-3] xor w[i-8] xor w[i-14] xor w[i-16])`. -/
def sha1Extend (acc : List Nat) : Nat → List Nat
  | 0 => acc
  | n + 1 =>
    let i := acc.length
    let g := fun k => acc.getD (i - k) 0
    sha1Extend (acc ++ [rotl 1 (g 3 ^^^ g 8 ^^^ g 14 ^^^ g 16)]) n

/-- The 80 compression rounds over the schedule words. -/
def sha1Rounds : Nat → Nat × Nat × Nat × Nat × Nat → List Nat →
    Nat × Nat × Nat × Nat × Nat
  | _, st, [] => st
  | t, (a, b, c, d, e), w :: ws =>
    let tmp := (rotl 5 a + sha1F t b c d + e + sha1K t + w) % pow32
    sha1Rounds (t + 1) (tmp, a, rotl 30 b, c, d) ws

/-- Process the (already padded) word stream block by block; the first
argument is recursion fuel bounding the number of blocks. -/
def sha1Blocks : Nat → Nat × Nat × Nat × Nat × Nat → List Nat →
    Nat × Nat × Nat × Nat × Nat
  | 0, st, _ => st
  | _ + 1, st, [] => st
  | fuel + 1, (h0, h1, h2, h3, h4), ws =>
    let sched := sha1Extend (ws.take 16) 64
    let r := sha1Rounds 0 (h0, h1, h2, h3, h4) sched
    sha1Blocks fuel
      ((h0 + r.1) % pow32, (h1 + r.2.1) % pow32, (h2 + r.2.2.1) % pow32,
       (h3 + r.2.2.2.1) % pow32, (h4 + r.2.2.2.2) % pow32)
      (ws.drop 16)

/-- SHA-1 padding: append `0x80`, zeros to 56 mod 64, then the bit length
as a 64-bit big-endian integer. -/
def sha1Pad (msg : List Nat) : List Nat :=
  let l := msg.length
  let z := (64 - (l + 9) % 64) % 64
  msg ++ 0x80 :: List.replicate z 0 ++
    [l * 8 / 2 ^ 56 % 256, l * 8 / 2 ^ 48 % 256, l * 8 / 2 ^ 40 % 256,
     l * 8 / 2 ^ 32 % 256, l * 8 / 2 ^ 24 % 256, l * 8 / 2 ^ 16 % 256,
     l * 8 / 2 ^ 8 % 256, l * 8 % 256]

/-- SHA-1 digest (20 bytes) of a byte list. -/
def sha1Bytes (msg : List Nat) : List Nat :=
  let ws := bytesToWords (sha1Pad msg)
  let st := sha1Blocks (ws.length) (0x67452301, 0xEFCDAB89, 0x98BADCFE, 0x10325476, 0xC3D2E1F0) ws
  wordBytes st.1 ++ wordBytes st.2.1 ++ wordBytes st.2.2.1 ++
    wordBytes st.2.2.2.1 ++ wordBytes st.2.2.2.2

/-- UTF-8 encoding of one character (Go strings are UTF-8 byte sequences;
`[]byte(s)` exposes exactly these bytes). -/
def utf8Bytes (c : Char) : List Nat :=
  let n := c.toNat
  if n < 0x80 then [n]
  else if n < 0x800 then [0xC0 + n / 64, 0x80 + n % 64]
  else if n < 0x10000 then [0xE0 + n / 4096, 0x80 + n / 64 % 64, 0x80 + n % 64]
  else [0xF0 + n / 262144, 0x80 + n / 4096 % 64, 0x80 + n / 64 % 64, 0x80 + n % 64]

/-- The bytes of a Go string (`[]byte(s)`). -/
def strBytes (s : String) : List Nat :=
  (s.data.map utf8Bytes).flatten

/-- `sha1Encode` (saml.go lines 106-110): SHA-1 of the string's bytes.  The
Go function returns the digest as a raw `string`; converting that string
back to `[]byte` is the identity on bytes, so the digest is kept as a byte
list here. -/
def sha1Encode (a : String) : List Nat := sha1Bytes (strBytes a)

/-! ## Base64 (encoding/base64 standard alphabet, as used in saml.go) -/

/-- Character `n` (0-63) of the standard base64 alphabet. -/
def b64Char (n : Nat) : Char :=
  if n < 26 then Char.ofNat (65 + n)
  else if n < 52 then Char.ofNat (97 + (n - 26))
  else if n < 62 then Char.ofNat (48 + (n - 52))
  else if n = 62 then '+'
  else '/'

/-- `base64.StdEncoding.EncodeToString`: 3-byte groups become 4 characters,
with `=` padding for a 1- or 2-byte tail. -/
def base64Chars : List Nat → List Char
  | b1 :: b2 :: b3 :: rest =>
    b64Char (b1 / 4) :: b64Char (b1 % 4 * 16 + b2 / 16) ::
      b64Char (b2 % 16 * 4 + b3 / 64) :: b64Char (b3 % 64) :: base64Chars rest
  | [b1, b2] =>
    [b64Char (b1 / 4), b64Char (b1 % 4 * 16 + b2 / 16), b64Char (b2 % 16 * 4), '=']
  | [b1] => [b64Char (b1 / 4), b64Char (b1 % 4 * 16), '=', '=']
  | [] => []

/-- `base64.StdEncoding.EncodeToString`. -/
def base64StdEncode (bs : List Nat) : String := String.mk (base64Chars bs)

/-! ## Assertion, signed info and signer (saml.go) -/

/-- The `assertion` struct (saml.go lines 24-32). -/
structure SamlAssertion where
  issuerID : String
  userID : String
  referenceID : String
  timeNow : String
  timeBefore : String
  timeAfter : String
  signatureXml : String
deriving DecidableEq

/-- Modelled from the spec: the XML template file
`templates/saml_assertion.xml` read by `parseTemplate` (saml.go lines
86-88 and 98-104) is not part of the repository; per spec section 6 it is a
fixed template with named substitution fields IssuerID, UserID,
ReferenceID, TimeNow, TimeBefore, TimeAfter and Signature, rendered
deterministically.  The exact literal text between the fields is unknown,
so representative XML-like separators are used; every theorem below depends
only on this rendering being a fixed deterministic function of the
fields. -/
def assertionString (a : SamlAssertion) : String :=
  "<saml:Assertion ID=\"" ++ a.referenceID ++ "\" IssueInstant=\"" ++ a.timeNow ++
    "\"><saml:Issuer>" ++ a.issuerID ++ "</saml:Issuer>" ++ a.signatureXml ++
    "<saml:Conditions NotBefore=\"" ++ a.timeBefore ++ "\" NotOnOrAfter=\"" ++
    a.timeAfter ++ "\"><saml:Subject>" ++ a.userID ++
    "</saml:Subject></saml:Conditions></saml:Assertion>"

/-- The `signedInfo` struct (saml.go lines 34-37). -/
structure SignedInfoData where
  referenceID : String
  digest : String
deriving DecidableEq

/-- Modelled from the spec: the XML template file `templates/saml_signed.xml`
is not part of the repository; per spec section 6 it substitutes the fields
ReferenceID and Digest into a fixed deterministic template. -/
def signedInfoString (s : SignedInfoData) : String :=
  "<SignedInfo><Reference URI=\"#" ++ s.referenceID ++
    "\"><DigestValue>" ++ s.digest ++ "</DigestValue></Reference></SignedInfo>"

/-- `signedInfoFromAssertion` (saml.go lines 122-130): copy the reference id
and set the digest to the standard base64 encoding of the SHA-1 hash of the
assertion's serialized form. -/
def signedInfoFromAssertion (a : SamlAssertion) : SignedInfoData :=
  { referenceID := a.referenceID
    digest := base64StdEncode (sha1Encode (assertionString a)) }

/-- Which `panic(...)` call of `SignatureValue` fired. -/
inductive SignPanicSite where
  | keyLoad
  | keyFormat
  | keyParse
  | rsaSign
deriving DecidableEq

/-- Result of `SignatureValue`: the base64 signature string, or a process
abort via `panic` (the function's Go type has no error result at all). -/
inductive SignOutcome where
  | ok (signatureValue : String)
  | panicked (site : SignPanicSite)
deriving DecidableEq

/-- `(*signedInfo).SignatureValue(keyPath)` (saml.go lines 132-157).  The
collaborators are inputs: `readFile` is the result of
`ioutil.ReadFile(keyPath)`; `pemDecode`, `parsePKCS1` and
`rsaSignPKCS1v15` model `pem.Decode`, `x509.ParsePKCS1PrivateKey` and
`rsa.SignPKCS1v15` (`none` = that collaborator failed).  The embedded code
is the repository's own control flow: each failure is met with `panic`,
and only full success returns the base64 signature over the SHA-1 digest
of the serialized signed info. -/
def signedInfoSignatureValue {K : Type} (readFile : Option (List Nat))
    (pemDecode : List Nat → Option (List Nat))
    (parsePKCS1 : List Nat → Option K)
    (rsaSignPKCS1v15 : K → List Nat → Option (List Nat))
    (s : SignedInfoData) : SignOutcome :=
  match readFile with
  | none => .panicked .keyLoad
  | some pkey =>
    match pemDecode pkey with
    | none => .panicked .keyFormat
    | some blockBytes =>
      match parsePKCS1 blockBytes with
      | none => .panicked .keyParse
      | some privateKey =>
        let digest := sha1Encode (signedInfoString s)
        match rsaSignPKCS1v15 privateKey digest with
        | none => .panicked .rsaSign
        | some sig => .ok (base64StdEncode sig)

/-! ## Time formatting (saml.go lines 50-53 and 112-115)

`formatTimeFromDuration` renders `t.Add(d).UTC()` with the Go layout
`"2006-01-02T15:04:05"` and appends the literal `".000Z"`.  The rendering
of a UTC instant (modelled as seconds since the Unix epoch) into
year/month/day/hour/minute/second fields is the standard-library
collaborator embedded below with the proleptic Gregorian calendar. -/

/-- Gregorian leap-year rule. -/
def isLeap (y : Nat) : Bool := y % 4 == 0 && (y % 100 != 0 || y % 400 == 0)

/-- Days in year `y`. -/
def daysInYear (y : Nat) : Nat := if isLeap y then 366 else 365

/-- Month lengths of year `y`, January first. -/
def monthLengths (y : Nat) : List Nat :=
  [31, if isLeap y then 29 else 28, 31, 30, 31, 30, 31, 31, 30, 31, 30, 31]

/-- Walk years forward from `y`, consuming `d` days; the first argument is
recursion fuel (taking `fuel = d` suffices, every year exceeding one day).
Returns the reached year and the day offset inside it. -/
def yearFromAux : Nat → Nat → Nat → Nat × Nat
  | 0, y, d => (y, d)
  | fuel + 1, y, d =>
    if d < daysInYear y then (y, d)
    else yearFromAux fuel (y + 1) (d - daysInYear y)

/-- Locate a day offset inside a month-length list: zero-based month index
and day offset inside that month. -/
def splitMonths : List Nat → Nat → Nat × Nat
  | [], d => (0, d)
  | m :: ms, d =>
    if d < m then (0, d)
    else ((splitMonths ms (d - m)).1 + 1, (splitMonths ms (d - m)).2)

/-- Civil UTC date (year, month 1-12, day 1-31) of a day count since
1970-01-01. -/
def civilFromDays (d : Nat) : Nat × Nat × Nat :=
  let yr := yearFromAux d 1970 d
  let md := splitMonths (monthLengths yr.1) yr.2
  (yr.1, md.1 + 1, md.2 + 1)

/-- The six civil fields of a UTC timestamp. -/
structure DateTimeParts where
  year : Nat
  month : Nat
  day : Nat
  hour : Nat
  minute : Nat
  second : Nat
deriving DecidableEq

/-- Civil UTC fields of an epoch-seconds instant. -/
def partsOfEpoch (t : Nat) : DateTimeParts :=
  let c := civilFromDays (t / 86400)
  { year := c.1, month := c.2.1, day := c.2.2
    hour := t % 86400 / 3600, minute := t % 86400 % 3600 / 60
    second := t % 60 }

/-- The ASCII digit character for `n` (0-9). -/
def digitChar (n : Nat) : Char := Char.ofNat (48 + n)

/-- Two-digit zero-padded rendering (Go layout components `01`, `02`, `15`,
`04`, `05`). -/
def twoDigits (n : Nat) : List Char := [digitChar (n / 10), digitChar (n % 10)]

/-- Four-digit zero-padded rendering (Go layout component `2006`). -/
def fourDigits (n : Nat) : List Char :=
  [digitChar (n / 1000), digitChar (n / 100 % 10),
   digitChar (n / 10 % 10), digitChar (n % 10)]

/-- The characters `t.Format("2006-01-02T15:04:05")` produces. -/
def renderParts (c : DateTimeParts) : List Char :=
  fourDigits c.year ++ '-' :: twoDigits c.month ++ '-' :: twoDigits c.day ++
    'T' :: twoDigits c.hour ++ ':' :: twoDigits c.minute ++ ':' :: twoDigits c.second

/-- The full rendered timestamp, with the literal `".000Z"` suffix appended
by `fmt.Sprintf` (saml.go line 114). -/
def fmtTimestamp (t : Nat) : String :=
  String.mk (renderParts (partsOfEpoch t) ++ ['.', '0', '0', '0', 'Z'])

/-- `formatTimeFromDuration` (saml.go lines 112-115): format `t.Add(d)` in
UTC.  `t` is the instant in epoch seconds, `d` the duration in seconds
(instants before the epoch are outside the model). -/
def formatTimeFromDuration (t : Nat) (d : Int) : String :=
  fmtTimestamp ((t : Int) + d).toNat

/-- The assertion built by `MakeSamlAssertion` before signing (saml.go
lines 44-53): configuration fields and a fresh reference id are copied in,
and the three validity timestamps are rendered from the current time with
offsets 0, minus five minutes and plus ten minutes. -/
def makeUnsignedAssertion (issuerID userID referenceID : String) (now : Nat) :
    SamlAssertion :=
  { issuerID := issuerID
    userID := userID
    referenceID := referenceID
    timeNow := formatTimeFromDuration now 0
    timeBefore := formatTimeFromDuration now (-(5 * 60))
    timeAfter := formatTimeFromDuration now (10 * 60)
    signatureXml := "" }

/-- Numeric value of an ASCII digit character. -/
def digitVal (c : Char) : Option Nat :=
  if 48 ≤ c.toNat ∧ c.toNat ≤ 57 then some (c.toNat - 48) else none

/-- Total days in the `k` consecutive years starting at year `y`. -/
def daysBetween (y : Nat) : Nat → Nat
  | 0 => 0
  | k + 1 => daysInYear y + daysBetween (y + 1) k

/-- Sum of the first `k` entries of a list. -/
def sumFirst : List Nat → Nat → Nat
  | _, 0 => 0
  | [], _ + 1 => 0
  | m :: ms, k + 1 => m + sumFirst ms k

/-- Epoch seconds denoted by civil UTC fields (years at or after 1970). -/
def epochOfParts (c : DateTimeParts) : Nat :=
  (daysBetween 1970 (c.year - 1970) + sumFirst (monthLengths c.year) (c.month - 1) +
      (c.day - 1)) * 86400 +
    c.hour * 3600 + c.minute * 60 + c.second

/-- Parse a string of the exact shape `YYYY-MM-DDTHH:MM:SS.000Z` back into
the UTC instant it denotes; any other shape is rejected.  This is the
specification-side reading of the timestamps the assertion carries. -/
def timestampValue (s : String) : Option Nat :=
  match s.data with
  | [y1, y2, y3, y4, '-', m1, m2, '-', d1, d2, 'T', h1, h2, ':', i1, i2, ':',
     s1, s2, '.', '0', '0', '0', 'Z'] =>
    match digitVal y1, digitVal y2, digitVal y3, digitVal y4, digitVal m1,
        digitVal m2, digitVal d1, digitVal d2, digitVal h1, digitVal h2,
        digitVal i1, digitVal i2, digitVal s1, digitVal s2 with
    | some v1, some v2, some v3, some v4, some w1, some w2, some u1,
      some u2, some p1, some p2, some q1, some q2, some r1, some r2 =>
      some (epochOfParts
        { year := ((v1 * 10 + v2) * 10 + v3) * 10 + v4
          month := w1 * 10 + w2
          day := u1 * 10 + u2
          hour := p1 * 10 + p2
          minute := q1 * 10 + q2
          second := r1 * 10 + r2 })
    | _, _, _, _, _, _, _, _, _, _, _, _, _, _ => none
  | _ => none

/-! ## Specification-side descriptions of challenge bodies -/

/-- A choice object of the identity provider's wire format:
`{"val": v, "text": t}`. -/
def choiceObj (v t : String) : JValue := .obj [("val", .str v), ("text", .str t)]

/-- Abstract description of one well-formed challenge group: a single-field
object whose value is the question followed by `(val, text)` choices. -/
structure GroupDesc where
  key : String
  question : String
  choices : List (String × String)

/-- The JSON challenge-group object a `GroupDesc` describes. -/
def groupJson (g : GroupDesc) : JValue :=
  .obj [(g.key, .arr (.str g.question :: g.choices.map fun c => choiceObj c.1 c.2))]

/-- A well-formed MFA error body: a `challenge` field holding the described
groups in order. -/
def challengeBody (gs : List GroupDesc) : JValue :=
  .obj [("challenge", .arr (gs.map groupJson))]

/-- The `Challenge` a well-formed group should parse to. -/
def expectedChallenge (g : GroupDesc) : Challenge :=
  ⟨g.question, g.choices.map fun c => ⟨c.1, c.2⟩⟩

/-- A malformed MFA error body: one challenge group whose single choice
object lacks the `val` field. -/
def malformedChallengeBody : JValue :=
  .obj [("challenge", .arr [.obj [("05",
    .arr [.str "What was your first car?", .obj [("text", .str "Ford")]])]])]

end Intuit

namespace Intuit

/-! # Theorems -/

/-! ## Validation of the embedded collaborators against known values -/

set_option maxRecDepth 100000 in
/-- The embedded SHA-1 matches the standard test vector for `"abc"`. -/
theorem sha1_known_vector :
    sha1Bytes (strBytes "abc") =
      [0xa9, 0x99, 0x3e, 0x36, 0x47, 0x06, 0x81, 0x6a, 0xba, 0x3e,
       0x25, 0x71, 0x78, 0x50, 0xc2, 0x6c, 0x9c, 0xd0, 0xd8, 0x9d] := by
  decide

set_option maxRecDepth 40000 in
/-- The embedded base64 encoder matches a known value. -/
theorem base64_known_vector : base64StdEncode [97, 98, 99] = "YWJj" := by
  decide

set_option maxRecDepth 40000 in
/-- The embedded calendar places the epoch at 1970-01-01T00:00:00 UTC. -/
theorem fmtTimestamp_epoch : fmtTimestamp 0 = "1970-01-01T00:00:00.000Z" := by
  decide

set_option maxRecDepth 40000 in
/-- The embedded calendar handles the leap day of year 2000. -/
theorem fmtTimestamp_leapDay :
    fmtTimestamp 951782400 = "2000-02-29T00:00:00.000Z" := by
  decide

/-! ## C8: signed info carries base64(SHA-1(serialized assertion)) -/

/-- C8: for every assertion, the signed info built by
`signedInfoFromAssertion` has digest equal to the standard base64 encoding
of the SHA-1 hash of the assertion's serialized form, and its reference id
equals the assertion's reference id. -/
theorem signedInfoFromAssertion_digest (a : SamlAssertion) :
    (signedInfoFromAssertion a).digest =
        base64StdEncode (sha1Bytes (strBytes (assertionString a))) ∧
      (signedInfoFromAssertion a).referenceID = a.referenceID :=
  ⟨rfl, rfl⟩

/-! ## C9: transport failure dereferences the nil response -/

/-- C9: when `http.PostForm` fails at the transport level (an error with no
response object), `MakeSamlAssertion`'s error branch reads the absent
response's headers and status, a nil-pointer dereference: it panics instead
of returning the transport error, so that branch is not total. -/
theorem transportFailure_nilDereference (e : String) :
    handleTokenResponse (some e) none = .nilDereferencePanic :=
  rfl

/-! ## C6: the signer panics rather than returning typed errors -/

/-- C6 counterexample: with an unreadable key file, `SignatureValue` does
not return a `KeyLoadError` (its Go type has no error result at all); it
panics.  Concretely, the key-load panic site fires. -/
theorem signatureValue_keyLoad_counterexample :
    signedInfoSignatureValue (K := Unit) none (fun _ => none) (fun _ => none)
        (fun _ _ => none) ⟨"", ""⟩ = .panicked .keyLoad :=
  rfl

/-- C6 amended: for every signing request, `SignatureValue` panics (aborts)
rather than returning a recoverable typed error: at the key-load panic site
when the key file cannot be read, at the PEM / PKCS#1 panic sites when the
content is not a valid PEM-encoded PKCS#1 RSA private key, and at the RSA
panic site when the signing operation fails; in all other cases it returns
the base64-encoded RSA signature over the SHA-1 digest of the serialized
signed info. -/
theorem signatureValue_panics {K : Type} (readFile : Option (List Nat))
    (pemDecode : List Nat → Option (List Nat)) (parsePKCS1 : List Nat → Option K)
    (rsaSign : K → List Nat → Option (List Nat)) (s : SignedInfoData) :
    (readFile = none →
      signedInfoSignatureValue readFile pemDecode parsePKCS1 rsaSign s =
        .panicked .keyLoad) ∧
    (∀ pk, readFile = some pk → pemDecode pk = none →
      signedInfoSignatureValue readFile pemDecode parsePKCS1 rsaSign s =
        .panicked .keyFormat) ∧
    (∀ pk bb, readFile = some pk → pemDecode pk = some bb → parsePKCS1 bb = none →
      signedInfoSignatureValue readFile pemDecode parsePKCS1 rsaSign s =
        .panicked .keyParse) ∧
    (∀ pk bb k, readFile = some pk → pemDecode pk = some bb →
      parsePKCS1 bb = some k →
      rsaSign k (sha1Encode (signedInfoString s)) = none →
      signedInfoSignatureValue readFile pemDecode parsePKCS1 rsaSign s =
        .panicked .rsaSign) ∧
    (∀ pk bb k sig, readFile = some pk → pemDecode pk = some bb →
      parsePKCS1 bb = some k →
      rsaSign k (sha1Encode (signedInfoString s)) = some sig →
      signedInfoSignatureValue readFile pemDecode parsePKCS1 rsaSign s =
        .ok (base64StdEncode sig)) := by
  refine ⟨fun h => ?_, fun pk h1 h2 => ?_, fun pk bb h1 h2 h3 => ?_,
    fun pk bb k h1 h2 h3 h4 => ?_, fun pk bb k sig h1 h2 h3 h4 => ?_⟩
  · simp [signedInfoSignatureValue, h]
  · simp [signedInfoSignatureValue, h1, h2]
  · simp [signedInfoSignatureValue, h1, h2, h3]
  · simp [signedInfoSignatureValue, h1, h2, h3, h4]
  · simp [signedInfoSignatureValue, h1, h2, h3, h4]

/-- C6 witness: the fully successful path at concrete collaborator results,
via `signatureValue_panics`. -/
theorem signatureValue_panics_witness :
    signedInfoSignatureValue (K := Unit) (some [1]) (fun _ => some [2])
        (fun _ => some ()) (fun _ _ => some [3, 4]) ⟨"ref", "dig"⟩ =
      .ok (base64StdEncode [3, 4]) :=
  (signatureValue_panics (K := Unit) (some [1]) (fun _ => some [2])
      (fun _ => some ()) (fun _ _ => some [3, 4]) ⟨"ref", "dig"⟩).2.2.2.2
    [1] [2] () [3, 4] rfl rfl rfl rfl

/-! ## C7: non-200 exchange error message -/

/-- C7: for every token-exchange response with a non-200 status (and no
transport error), the exchange fails with an error whose message is the
HTTP status line followed by the URL-decoded `Www-Authenticate` header
content, and the returned token is the zero-valued one. -/
theorem tokenExchange_non200_message (r : HttpResp) (decoded : String)
    (h1 : r.statusCode ≠ 200)
    (h2 : queryUnescape (headerGet r.headers "Www-Authenticate") = some decoded) :
    handleTokenResponse none (some r) =
      .result ⟨"", ""⟩ (some (r.status ++ " " ++ decoded)) := by
  simp [handleTokenResponse, h1, h2]

/-- C7 witness: a 401 response whose `Www-Authenticate` header holds
`Basic realm%3D%22test%22` produces an error message ending in the decoded
text `realm="test"`, via `tokenExchange_non200_message`. -/
theorem tokenExchange_non200_message_witness :
    handleTokenResponse none
        (some ⟨401, "401 Unauthorized",
          [("Www-Authenticate", "Basic realm%3D%22test%22")], ""⟩) =
      .result ⟨"", ""⟩
        (some ("401 Unauthorized" ++ " " ++ ("Basic realm" ++ "=\"test\""))) :=
  tokenExchange_non200_message
    ⟨401, "401 Unauthorized", [("Www-Authenticate", "Basic realm%3D%22test%22")], ""⟩
    ("Basic realm" ++ "=\"test\"") (by decide) (by decide)

/-! ## C5: the 200 path never reports a missing token field -/

/-- C5 counterexample: a 200 exchange response whose body lacks the
`oauth_token` field does not fail at all (no `TokenResponseMalformedError`
exists in the code): it returns a token whose `token` field is empty,
with a nil error. -/
theorem tokenExchange_missingField_counterexample :
    handleTokenResponse none (some ⟨200, "200 OK", [], "oauth_token_secret=s"⟩) =
      .result ⟨"", "s"⟩ none := by
  decide

/-- C5 amended: on every HTTP 200 token-exchange response the body is parsed
as url-encoded form data and the token/secret pair is read from the
`oauth_token` and `oauth_token_secret` fields, with a nil error; when either
field is absent the corresponding component is the empty string (the
exchange still succeeds) rather than any error being raised. -/
theorem tokenExchange_200_fields (r : HttpResp) (h : r.statusCode = 200) :
    handleTokenResponse none (some r) =
        .result ⟨formGet (parseQueryPairs r.body) "oauth_token",
                 formGet (parseQueryPairs r.body) "oauth_token_secret"⟩ none ∧
      ((parseQueryPairs r.body).find? (fun p => p.1 == "oauth_token") = none →
        formGet (parseQueryPairs r.body) "oauth_token" = "") ∧
      ((parseQueryPairs r.body).find? (fun p => p.1 == "oauth_token_secret") = none →
        formGet (parseQueryPairs r.body) "oauth_token_secret" = "") := by
  refine ⟨by simp [handleTokenResponse, h], fun hf => ?_, fun hf => ?_⟩ <;>
    simp [formGet, hf]

/-- C5 witness: `tokenExchange_200_fields` applied to a concrete 200
response whose body carries only the secret. -/
theorem tokenExchange_200_fields_witness :
    (handleTokenResponse none (some ⟨200, "200 OK", [], "oauth_token_secret=s"⟩) =
        .result
          ⟨formGet (parseQueryPairs "oauth_token_secret=s") "oauth_token",
           formGet (parseQueryPairs "oauth_token_secret=s") "oauth_token_secret"⟩
          none) ∧
      ((parseQueryPairs "oauth_token_secret=s").find?
          (fun p => p.1 == "oauth_token") = none →
        formGet (parseQueryPairs "oauth_token_secret=s") "oauth_token" = "") ∧
      ((parseQueryPairs "oauth_token_secret=s").find?
          (fun p => p.1 == "oauth_token_secret") = none →
        formGet (parseQueryPairs "oauth_token_secret=s") "oauth_token_secret" = "") :=
  tokenExchange_200_fields ⟨200, "200 OK", [], "oauth_token_secret=s"⟩ rfl

/-! ## C1: a failed exchange caches a non-nil empty token -/

/-- C1: `MakeSamlAssertion` returns a freshly allocated, non-nil
`AccessToken` even when the exchange fails (here: a 401 with no
`Www-Authenticate` header), `request` stores that pointer into the session
configuration before checking the error, and therefore the next `request`
call finds a non-nil token, skips acquisition entirely, and proceeds with
the cached empty credential — the session token is not left unset and
acquisition is not retried. -/
theorem failedExchange_cachesEmptyToken :
    (handleTokenResponse none (some ⟨401, "401 Unauthorized", [], ""⟩) =
        .result ⟨"", ""⟩ (some ("401 Unauthorized" ++ " " ++ ""))) ∧
      (requestTokenPhase ⟨none⟩
          (.result ⟨"", ""⟩ (some ("401 Unauthorized" ++ " " ++ ""))) =
        some (⟨some ⟨"", ""⟩⟩, true, some ("401 Unauthorized" ++ " " ++ ""))) ∧
      (∀ exchange : ExchangeOutcome,
        requestTokenPhase ⟨some ⟨"", ""⟩⟩ exchange =
          some (⟨some ⟨"", ""⟩⟩, false, none)) :=
  ⟨by decide, rfl, fun _ => rfl⟩

/-! ## C10: RespondToChallenge fills responses positionally -/

/-- Storing at index `pre.length` of `pre ++ post` succeeds exactly when
`post` is nonempty, replacing its head. -/
theorem setAt_append {α : Type} (a : α) :
    ∀ (pre post : List α),
      setAt (pre ++ post) pre.length a =
        match post with
        | [] => none
        | _ :: ps => some (pre ++ a :: ps) := by
  intro pre
  induction pre with
  | nil => intro post; cases post <;> rfl
  | cons x xs ih =>
    intro post
    have h := ih post
    cases post with
    | nil =>
      simp only [List.append_nil] at h
      simp [setAt, h]
    | cons p ps =>
      simp [setAt, h]

/-- The positional fill loop: starting from `pre ++ post` at index
`pre.length`, it succeeds exactly when the answers fit into `post`,
replacing the leading entries of `post`. -/
theorem fillAnswers_spec {α : Type} (as : List α) :
    ∀ (pre post : List (ChallengeResponse α)),
      fillAnswers (pre ++ post) pre.length as =
        if as.length ≤ post.length then
          some (pre ++ as.map filledChallengeResponse ++ post.drop as.length)
        else none := by
  induction as with
  | nil => intro pre post; simp [fillAnswers]
  | cons a rest ih =>
    intro pre post
    cases post with
    | nil =>
      have h := setAt_append (filledChallengeResponse a) pre []
      simp only [List.append_nil] at h
      simp [fillAnswers, h]
    | cons p ps =>
      rw [fillAnswers, setAt_append]
      show fillAnswers (pre ++ filledChallengeResponse a :: ps) (pre.length + 1) rest = _
      have h1 : pre ++ filledChallengeResponse a :: ps =
          (pre ++ [filledChallengeResponse a]) ++ ps := by simp
      have h2 : pre.length + 1 = (pre ++ [filledChallengeResponse a]).length := by
        simp
      rw [h1, h2, ih (pre ++ [filledChallengeResponse a]) ps]
      by_cases h : rest.length ≤ ps.length
      · rw [if_pos h, if_pos (by simp only [List.length_cons]; omega)]
        simp
      · rw [if_neg h, if_neg (by simp only [List.length_cons]; omega)]

/-- C10: `RespondToChallenge` builds the response list with exactly one
entry per element of `Challenges`, filling entries positionally from
`Answers`; when there are fewer answers than challenges the trailing
responses are the zero-valued placeholders, and when there are more
answers than challenges the indexing panics (no list is produced), so
`len(Answers) <= len(Challenges)` is a precondition. -/
theorem respondToChallenge_positional {α : Type} (challenges : List Challenge)
    (answers : List α) :
    (answers.length ≤ challenges.length →
      respondResponseList challenges answers =
        some (answers.map filledChallengeResponse ++
          List.replicate (challenges.length - answers.length) zeroChallengeResponse)) ∧
    (challenges.length < answers.length →
      respondResponseList challenges answers = none) ∧
    (∀ rs, respondResponseList challenges answers = some rs →
      rs.length = challenges.length) := by
  have base :
      respondResponseList challenges answers =
        if answers.length ≤ challenges.length then
          some (answers.map filledChallengeResponse ++
            (List.replicate challenges.length
                (zeroChallengeResponse (α := α))).drop answers.length)
        else none := by
    have := fillAnswers_spec answers ([] : List (ChallengeResponse α))
      (List.replicate challenges.length zeroChallengeResponse)
    simpa [respondResponseList, List.length_replicate] using this
  refine ⟨fun h => ?_, fun h => ?_, fun rs hrs => ?_⟩
  · rw [base, if_pos h, List.drop_replicate]
  · rw [base, if_neg (by omega)]
  · rw [base] at hrs
    by_cases h : answers.length ≤ challenges.length
    · rw [if_pos h] at hrs
      cases hrs
      simp [List.length_replicate, List.length_drop]
      omega
    · rw [if_neg h] at hrs
      cases hrs

/-- C10 witness: three challenges and two answers — via
`respondToChallenge_positional`, the loop produces one filled response per
answer and one trailing zero-valued placeholder. -/
theorem respondToChallenge_positional_witness :
    respondResponseList [⟨"q1", []⟩, ⟨"q2", []⟩, ⟨"q3", []⟩] ["a1", "a2"] =
      some (["a1", "a2"].map filledChallengeResponse ++
        List.replicate (([⟨"q1", []⟩, ⟨"q2", []⟩, ⟨"q3", []⟩] : List Challenge).length - 2)
          zeroChallengeResponse) :=
  (respondToChallenge_positional [⟨"q1", []⟩, ⟨"q2", []⟩, ⟨"q3", []⟩] ["a1", "a2"]).1
    (by decide)

/-! ## Challenge parsing lemmas shared by C2 and C4 -/

/-- A `(val, text)` choice object parses to the corresponding `Choice`. -/
theorem parseChoice_choiceObj (v t : String) :
    parseChoice (choiceObj v t) = some ⟨v, t⟩ := by
  simp [parseChoice, choiceObj, jGet, asObj, asStr, List.find?]

/-- A list of well-formed choice objects parses elementwise, in order. -/
theorem mapOpt_parseChoice_choiceObjs (cs : List (String × String)) :
    mapOpt parseChoice (cs.map fun c => choiceObj c.1 c.2) =
      some (cs.map fun c => (⟨c.1, c.2⟩ : Choice)) := by
  induction cs with
  | nil => rfl
  | cons c cs ih => simp [mapOpt, parseChoice_choiceObj, ih]

/-- If any element of the list makes `f` panic, the whole iteration
panics. -/
theorem mapOpt_none_of_bad {α β : Type} (f : α → Option β) (y : α)
    (hy : f y = none) :
    ∀ (xs ys : List α), mapOpt f (xs ++ y :: ys) = none := by
  intro xs
  induction xs with
  | nil => intro ys; simp [mapOpt, hy]
  | cons x xs ih =>
    intro ys
    have h2 := ih ys
    simp only [List.cons_append, mapOpt]
    cases f x with
    | none => rfl
    | some b =>
      simp only [List.append_eq] at h2 ⊢
      rw [h2]

/-- Each described group parses to exactly its expected challenge (the
group object has a single field, so Go's map iteration order is immaterial
for it). -/
theorem parseGroup_groupJson (g : GroupDesc) :
    parseGroup (groupJson g) = some [expectedChallenge g] := by
  have hent : parseGroupEntry (g.key,
      .arr (.str g.question :: g.choices.map fun c => choiceObj c.1 c.2)) =
      some (expectedChallenge g) := by
    simp [parseGroupEntry, asArr, parseGroupValue, asStr,
      mapOpt_parseChoice_choiceObjs, expectedChallenge]
  simp [parseGroup, groupJson, asObj, mapOpt, hent]

/-- The whole group sequence parses elementwise, in order. -/
theorem parseGroups_wellFormed (gs : List GroupDesc) :
    mapOpt parseGroup (gs.map groupJson) =
      some (gs.map fun g => [expectedChallenge g]) := by
  induction gs with
  | nil => rfl
  | cons g gs ih =>
    simp only [List.map_cons, mapOpt, parseGroup_groupJson, ih]

/-- Flattening singleton blocks is the elementwise map. -/
theorem flatten_map_singleton {α β : Type} (f : α → β) (xs : List α) :
    (xs.map fun x => [f x]).flatten = xs.map f := by
  induction xs with
  | nil => rfl
  | cons x xs ih => simp [ih]

/-! ## C4: well-formed bodies parse in source order -/

/-- C4: for every well-formed MFA error body (an ordered sequence of
single-field challenge groups, each with one question and ordered
`(val, text)` choices) and its response headers, `parseChallengeSession`
produces a `ChallengeSession` whose challenges, and each challenge's
choices, appear exactly in the order encountered in the source sequence,
and whose session and node ids are the values of the `Challengesessionid`
and `Challengenodeid` headers. -/
theorem parseChallengeSession_wellFormed (ctx : ChallengeContextType)
    (hdrs : List (String × String)) (gs : List GroupDesc) (data : JValue)
    (h : data = challengeBody gs) :
    parseChallengeSession ctx data hdrs =
      .session
        { institutionId := ""
          loginId := ""
          sessionId := headerGet hdrs "Challengesessionid"
          nodeId := headerGet hdrs "Challengenodeid"
          challenges := gs.map expectedChallenge
          answers := []
          contextType := ctx } := by
  subst h
  simp only [parseChallengeSession, challengeBody, asObj]
  rw [show jGet [("challenge", JValue.arr (gs.map groupJson))] "challenge" =
      JValue.arr (gs.map groupJson) from rfl]
  simp only [asArr]
  rw [parseGroups_wellFormed gs]
  simp [flatten_map_singleton]

/-- C4 witness: a body with two challenge groups, each holding one question
and two choices, via `parseChallengeSession_wellFormed`. -/
theorem parseChallengeSession_wellFormed_witness :
    parseChallengeSession .discoverAndAdd
        (challengeBody
          [⟨"05", "First pet?", [("v1", "Rex"), ("v2", "Spot")]⟩,
           ⟨"06", "First car?", [("v3", "Ford"), ("v4", "Kia")]⟩])
        [("Challengesessionid", "sess-1"), ("Challengenodeid", "node-7")] =
      .session
        { institutionId := ""
          loginId := ""
          sessionId := headerGet
            [("Challengesessionid", "sess-1"), ("Challengenodeid", "node-7")]
            "Challengesessionid"
          nodeId := headerGet
            [("Challengesessionid", "sess-1"), ("Challengenodeid", "node-7")]
            "Challengenodeid"
          challenges :=
            ([⟨"05", "First pet?", [("v1", "Rex"), ("v2", "Spot")]⟩,
              ⟨"06", "First car?", [("v3", "Ford"), ("v4", "Kia")]⟩] :
                List GroupDesc).map expectedChallenge
          answers := []
          contextType := .discoverAndAdd } :=
  parseChallengeSession_wellFormed .discoverAndAdd
    [("Challengesessionid", "sess-1"), ("Challengenodeid", "node-7")]
    [⟨"05", "First pet?", [("v1", "Rex"), ("v2", "Spot")]⟩,
     ⟨"06", "First car?", [("v3", "Ford"), ("v4", "Kia")]⟩]
    _ rfl

/-! ## C2: malformed bodies make the parser panic -/

/-- C2 counterexample: on a challenge body whose choice object lacks the
`val` field, `parseChallengeSession` hits an unchecked type assertion and
panics; it does not fail with any recoverable `ChallengeFormatError` (no
such value exists in the code). -/
theorem parseChallengeSession_missingVal_counterexample :
    parseChallengeSession .discoverAndAdd malformedChallengeBody
        [("Challengesessionid", "sess-1"), ("Challengenodeid", "node-7")] =
      .typeAssertionPanic := by
  decide

/-- C2 amended: for every error-response body whose challenge payload
contains (in its first challenge group) a choice object with no string
`val` field — in particular one missing `val` — the parser panics on the
unchecked type assertion `cData["val"].(string)` rather than returning a
recoverable error result; since it panics, it returns nothing, in
particular no partially-populated session. -/
theorem parseChallengeSession_badChoice_panics (ctx : ChallengeContextType)
    (hdrs : List (String × String)) (key q : String)
    (before rest : List JValue) (badFields : List (String × JValue))
    (moreGroups : List JValue)
    (hbad : asStr (jGet badFields "val") = none) :
    parseChallengeSession ctx
        (.obj [("challenge", .arr (.obj [(key,
            .arr (.str q :: (before ++ .obj badFields :: rest)))] :: moreGroups))])
        hdrs =
      .typeAssertionPanic := by
  have hchoice : parseChoice (.obj badFields) = none := by
    simp [parseChoice, asObj, hbad]
  have hval : mapOpt parseChoice (before ++ JValue.obj badFields :: rest) = none :=
    mapOpt_none_of_bad parseChoice _ hchoice before rest
  have hgrp : parseGroupEntry (key,
      .arr (.str q :: (before ++ JValue.obj badFields :: rest))) = none := by
    simp [parseGroupEntry, asArr, parseGroupValue, asStr, hval]
  have hg2 : parseGroup (.obj [(key,
      .arr (.str q :: (before ++ JValue.obj badFields :: rest)))]) = none := by
    simp [parseGroup, asObj, mapOpt, hgrp]
  simp [parseChallengeSession, asObj, jGet, List.find?, asArr, mapOpt, hg2]

/-- C2 witness: `parseChallengeSession_badChoice_panics` at the concrete
malformed body (single group, one choice object carrying only `text`). -/
theorem parseChallengeSession_badChoice_panics_witness :
    asStr (jGet [("text", JValue.str "Ford")] "val") = none ∧
      parseChallengeSession .discoverAndAdd
          (.obj [("challenge", .arr (.obj [("05",
              .arr (.str "First car?" ::
                ([] ++ JValue.obj [("text", JValue.str "Ford")] :: [])))] :: []))])
          [("Challengesessionid", "sess-1")] =
        .typeAssertionPanic :=
  ⟨by decide,
   parseChallengeSession_badChoice_panics .discoverAndAdd
     [("Challengesessionid", "sess-1")] "05" "First car?" [] []
     [("text", JValue.str "Ford")] [] (by decide)⟩

/-! ## Calendar lemmas for C3 -/

/-- Every year has at least 365 days. -/
theorem daysInYear_pos (y : Nat) : 365 ≤ daysInYear y := by
  by_cases h : isLeap y <;> simp [daysInYear, h]

/-- The Gregorian leap-year pattern repeats every 400 years. -/
theorem isLeap_add_400 (y : Nat) : isLeap (y + 400) = isLeap y := by
  simp only [isLeap]
  rw [show (y + 400) % 4 = y % 4 by omega, show (y + 400) % 100 = y % 100 by omega,
      show (y + 400) % 400 = y % 400 by omega]

/-- Year lengths repeat every 400 years. -/
theorem daysInYear_add_400 (y : Nat) : daysInYear (y + 400) = daysInYear y := by
  simp [daysInYear, isLeap_add_400]

/-- Day counts over a span repeat when the span is shifted by 400 years. -/
theorem daysBetween_shift400 (k : Nat) :
    ∀ y, daysBetween (y + 400) k = daysBetween y k := by
  induction k with
  | zero => intro y; rfl
  | succ n ih =>
    intro y
    simp only [daysBetween, daysInYear_add_400]
    rw [show y + 400 + 1 = (y + 1) + 400 by omega, ih]

/-- Day counts are additive over consecutive year spans. -/
theorem daysBetween_add (m : Nat) :
    ∀ y n, daysBetween y (m + n) = daysBetween y m + daysBetween (y + m) n := by
  induction m with
  | zero => intro y n; simp [daysBetween]
  | succ k ih =>
    intro y n
    rw [show k + 1 + n = (k + n) + 1 by omega]
    simp only [daysBetween]
    rw [ih (y + 1) n, show y + 1 + k = y + (k + 1) by omega]
    omega

set_option maxRecDepth 10000 in
/-- The 400 years from 2000 span 146097 days. -/
theorem daysBetween_2000_400 : daysBetween 2000 400 = 146097 := by decide

set_option maxRecDepth 10000 in
/-- The 30 years from 1970 span 10957 days. -/
theorem daysBetween_1970_30 : daysBetween 1970 30 = 10957 := by decide

/-- Day count of `j` 400-year cycles starting at 2000. -/
theorem daysBetween_2000_mul400 (j : Nat) :
    daysBetween 2000 (400 * j) = 146097 * j := by
  induction j with
  | zero => rfl
  | succ n ih =>
    rw [show 400 * (n + 1) = 400 + 400 * n by ring, daysBetween_add 400 2000 (400 * n),
        daysBetween_shift400 (400 * n) 2000, daysBetween_2000_400, ih]
    ring

/-- The 8030 years from 1970 through 9999 span 2932897 days. -/
theorem daysBetween_1970_8030 : daysBetween 1970 8030 = 2932897 := by
  rw [show (8030 : Nat) = 30 + 8000 by norm_num, daysBetween_add 30 1970 8000,
      show (1970 : Nat) + 30 = 2000 from rfl, daysBetween_1970_30,
      show (8000 : Nat) = 400 * 20 by norm_num, daysBetween_2000_mul400]

/-- Day counts grow with the span. -/
theorem daysBetween_le_of_le (y k1 k2 : Nat) (h : k1 ≤ k2) :
    daysBetween y k1 ≤ daysBetween y k2 := by
  obtain ⟨j, rfl⟩ := Nat.le.dest h
  rw [daysBetween_add k1 y j]
  omega

/-- `yearFromAux` with enough fuel lands in a year at or after its start,
with an in-year offset, and consumes exactly the day count of the
traversed years. -/
theorem yearFromAux_spec :
    ∀ (fuel y d : Nat), d ≤ fuel →
      y ≤ (yearFromAux fuel y d).1 ∧
      (yearFromAux fuel y d).2 < daysInYear (yearFromAux fuel y d).1 ∧
      daysBetween y ((yearFromAux fuel y d).1 - y) + (yearFromAux fuel y d).2 = d := by
  intro fuel
  induction fuel with
  | zero =>
    intro y d h
    have hd : d = 0 := Nat.le_zero.mp h
    subst hd
    have hpos := daysInYear_pos y
    refine ⟨Nat.le_refl y, ?_, ?_⟩
    · simp only [yearFromAux]
      omega
    · simp [yearFromAux, daysBetween]
  | succ fuel ih =>
    intro y d h
    rw [yearFromAux]
    by_cases hlt : d < daysInYear y
    · rw [if_pos hlt]
      exact ⟨Nat.le_refl y, hlt, by simp [daysBetween]⟩
    · rw [if_neg hlt]
      have hpos := daysInYear_pos y
      have h2 : d - daysInYear y ≤ fuel := by omega
      obtain ⟨ha, hb, hc⟩ := ih (y + 1) (d - daysInYear y) h2
      refine ⟨by omega, hb, ?_⟩
      have hsub : (yearFromAux fuel (y + 1) (d - daysInYear y)).1 - y =
          ((yearFromAux fuel (y + 1) (d - daysInYear y)).1 - (y + 1)) + 1 := by
        omega
      rw [hsub, daysBetween]
      omega

/-- The month table of a year sums to that year's length. -/
theorem sum_monthLengths (y : Nat) : (monthLengths y).sum = daysInYear y := by
  by_cases h : isLeap y <;> simp [monthLengths, daysInYear, h]

/-- `splitMonths` lands inside the list, with the consumed prefix plus the
offset recovering the input. -/
theorem splitMonths_spec :
    ∀ (ls : List Nat) (d : Nat), d < ls.sum →
      (splitMonths ls d).1 < ls.length ∧
      sumFirst ls (splitMonths ls d).1 + (splitMonths ls d).2 = d ∧
      (splitMonths ls d).2 < ls.getD (splitMonths ls d).1 0 := by
  intro ls
  induction ls with
  | nil => intro d h; simp at h
  | cons m ms ih =>
    intro d h
    rw [splitMonths]
    by_cases hd : d < m
    · rw [if_pos hd]
      exact ⟨by simp, by simp [sumFirst], by simpa using hd⟩
    · rw [if_neg hd]
      have hsum : d - m < ms.sum := by
        simp only [List.sum_cons] at h
        omega
      obtain ⟨ha, hb, hc⟩ := ih (d - m) hsum
      refine ⟨by simpa using ha, ?_, by simpa using hc⟩
      simp only [sumFirst]
      omega

/-- Entrywise bound through `List.getD` with default 0. -/
theorem getD_le (ls : List Nat) (b : Nat) (h : ∀ x ∈ ls, x ≤ b) :
    ∀ i, ls.getD i 0 ≤ b := by
  induction ls with
  | nil => intro i; simp [List.getD]
  | cons m ms ih =>
    intro i
    cases i with
    | zero => simpa using h m (by simp)
    | succ j => simpa using ih (fun x hx => h x (by simp [hx])) j

/-- Every month has at most 31 days. -/
theorem monthLengths_le (y i : Nat) : (monthLengths y).getD i 0 ≤ 31 := by
  refine getD_le _ _ ?_ i
  by_cases h : isLeap y <;> simp [monthLengths, h]

/-- Splitting an epoch instant into civil fields is invertible, and for
instants up to the end of year 9999 all fields are small enough to render
in the fixed-width layout. -/
theorem partsOfEpoch_spec (t : Nat) (h : t ≤ 253402300799) :
    epochOfParts (partsOfEpoch t) = t ∧
      1970 ≤ (partsOfEpoch t).year ∧ (partsOfEpoch t).year ≤ 9999 ∧
      (partsOfEpoch t).month ≤ 99 ∧ (partsOfEpoch t).day ≤ 99 ∧
      (partsOfEpoch t).hour ≤ 99 ∧ (partsOfEpoch t).minute ≤ 99 ∧
      (partsOfEpoch t).second ≤ 99 := by
  obtain ⟨hy1, hy2, hy3⟩ := yearFromAux_spec (t / 86400) 1970 (t / 86400) (Nat.le_refl _)
  set p := yearFromAux (t / 86400) 1970 (t / 86400) with hp
  have hdays : t / 86400 ≤ 2932896 := by omega
  have hyear : p.1 ≤ 9999 := by
    by_contra hcon
    push_neg at hcon
    have h1 : 8030 ≤ p.1 - 1970 := by omega
    have h2 := daysBetween_le_of_le 1970 8030 (p.1 - 1970) h1
    rw [daysBetween_1970_8030] at h2
    omega
  have hsum : p.2 < (monthLengths p.1).sum := by
    rw [sum_monthLengths]
    exact hy2
  obtain ⟨hm1, hm2, hm3⟩ := splitMonths_spec (monthLengths p.1) p.2 hsum
  set q := splitMonths (monthLengths p.1) p.2 with hq
  have hday : q.2 ≤ 30 := by
    have := monthLengths_le p.1 q.1
    omega
  have hmonth : q.1 ≤ 11 := by
    have : (monthLengths p.1).length = 12 := by
      by_cases hl : isLeap p.1 <;> simp [monthLengths, hl]
    omega
  have hparts : partsOfEpoch t =
      ⟨p.1, q.1 + 1, q.2 + 1, t % 86400 / 3600, t % 86400 % 3600 / 60, t % 60⟩ := by
    simp [partsOfEpoch, civilFromDays, ← hp, ← hq]
  rw [hparts]
  refine ⟨?_, ?_, ?_, ?_, ?_, ?_, ?_, ?_⟩
  · show (daysBetween 1970 (p.1 - 1970) + sumFirst (monthLengths p.1) (q.1 + 1 - 1) +
        (q.2 + 1 - 1)) * 86400 + t % 86400 / 3600 * 3600 +
        t % 86400 % 3600 / 60 * 60 + t % 60 = t
    rw [Nat.add_sub_cancel, Nat.add_sub_cancel]
    omega
  · show 1970 ≤ p.1
    omega
  · show p.1 ≤ 9999
    exact hyear
  · show q.1 + 1 ≤ 99
    omega
  · show q.2 + 1 ≤ 99
    omega
  · show t % 86400 / 3600 ≤ 99
    omega
  · show t % 86400 % 3600 / 60 ≤ 99
    omega
  · show t % 60 ≤ 99
    omega

/-- An ASCII digit renders and reads back. -/
theorem digitVal_digitChar (k : Nat) (h : k ≤ 9) :
    digitVal (digitChar k) = some k := by
  interval_cases k <;> decide

/-- Rendering civil fields in the Go layout and reading the string back
yields the instant those fields denote. -/
theorem timestampValue_render (c : DateTimeParts) (h1 : c.year ≤ 9999)
    (h2 : c.month ≤ 99) (h3 : c.day ≤ 99) (h4 : c.hour ≤ 99)
    (h5 : c.minute ≤ 99) (h6 : c.second ≤ 99) :
    timestampValue (String.mk (renderParts c ++ ['.', '0', '0', '0', 'Z'])) =
      some (epochOfParts c) := by
  obtain ⟨y, mo, d, h, mi, s⟩ := c
  simp only at h1 h2 h3 h4 h5 h6
  show (match digitVal (digitChar (y / 1000)), digitVal (digitChar (y / 100 % 10)),
      digitVal (digitChar (y / 10 % 10)), digitVal (digitChar (y % 10)),
      digitVal (digitChar (mo / 10)), digitVal (digitChar (mo % 10)),
      digitVal (digitChar (d / 10)), digitVal (digitChar (d % 10)),
      digitVal (digitChar (h / 10)), digitVal (digitChar (h % 10)),
      digitVal (digitChar (mi / 10)), digitVal (digitChar (mi % 10)),
      digitVal (digitChar (s / 10)), digitVal (digitChar (s % 10)) with
    | some v1, some v2, some v3, some v4, some w1, some w2, some u1,
      some u2, some p1, some p2, some q1, some q2, some r1, some r2 =>
      some (epochOfParts
        { year := ((v1 * 10 + v2) * 10 + v3) * 10 + v4
          month := w1 * 10 + w2
          day := u1 * 10 + u2
          hour := p1 * 10 + p2
          minute := q1 * 10 + q2
          second := r1 * 10 + r2 })
    | _, _, _, _, _, _, _, _, _, _, _, _, _, _ => none) =
    some (epochOfParts ⟨y, mo, d, h, mi, s⟩)
  rw [digitVal_digitChar (y / 1000) (by omega), digitVal_digitChar (y / 100 % 10) (by omega),
      digitVal_digitChar (y / 10 % 10) (by omega), digitVal_digitChar (y % 10) (by omega),
      digitVal_digitChar (mo / 10) (by omega), digitVal_digitChar (mo % 10) (by omega),
      digitVal_digitChar (d / 10) (by omega), digitVal_digitChar (d % 10) (by omega),
      digitVal_digitChar (h / 10) (by omega), digitVal_digitChar (h % 10) (by omega),
      digitVal_digitChar (mi / 10) (by omega), digitVal_digitChar (mi % 10) (by omega),
      digitVal_digitChar (s / 10) (by omega), digitVal_digitChar (s % 10) (by omega)]
  show some (epochOfParts
      { year := ((y / 1000 * 10 + y / 100 % 10) * 10 + y / 10 % 10) * 10 + y % 10
        month := mo / 10 * 10 + mo % 10
        day := d / 10 * 10 + d % 10
        hour := h / 10 * 10 + h % 10
        minute := mi / 10 * 10 + mi % 10
        second := s / 10 * 10 + s % 10 }) =
    some (epochOfParts ⟨y, mo, d, h, mi, s⟩)
  rw [show ((y / 1000 * 10 + y / 100 % 10) * 10 + y / 10 % 10) * 10 + y % 10 = y by omega,
      show mo / 10 * 10 + mo % 10 = mo by omega,
      show d / 10 * 10 + d % 10 = d by omega,
      show h / 10 * 10 + h % 10 = h by omega,
      show mi / 10 * 10 + mi % 10 = mi by omega,
      show s / 10 * 10 + s % 10 = s by omega]

/-- Reading back a rendered timestamp recovers the instant, for every
instant up to the last second of year 9999. -/
theorem timestampValue_fmtTimestamp (t : Nat) (h : t ≤ 253402300799) :
    timestampValue (fmtTimestamp t) = some t := by
  obtain ⟨he, hb1, hb2, hb3, hb4, hb5, hb6, hb7⟩ := partsOfEpoch_spec t h
  rw [show fmtTimestamp t =
      String.mk (renderParts (partsOfEpoch t) ++ ['.', '0', '0', '0', 'Z']) from rfl,
    timestampValue_render (partsOfEpoch t) hb2 hb3 hb4 hb5 hb6 hb7, he]

/-! ## C3: the assertion's validity window -/

/-- C3: for every assertion built at current time `now` (any instant from
five minutes past the epoch to the end of year 9999), the three validity
fields are rendered in UTC in the exact layout `YYYY-MM-DDTHH:MM:SS.000Z`
and denote the instants `now - 5min`, `now` and `now + 10min`
respectively, so `timeBefore < timeNow < timeAfter` holds with exactly
those offsets. -/
theorem makeSamlAssertion_validityWindow (issuerID userID referenceID : String)
    (now : Nat) (h1 : 300 ≤ now) (h2 : now + 600 ≤ 253402300799) :
    timestampValue (makeUnsignedAssertion issuerID userID referenceID now).timeBefore =
        some (now - 300) ∧
      timestampValue (makeUnsignedAssertion issuerID userID referenceID now).timeNow =
        some now ∧
      timestampValue (makeUnsignedAssertion issuerID userID referenceID now).timeAfter =
        some (now + 600) ∧
      now - 300 < now ∧ now < now + 600 := by
  have e1 : (makeUnsignedAssertion issuerID userID referenceID now).timeBefore =
      fmtTimestamp (now - 300) := by
    show fmtTimestamp ((now : Int) + -(5 * 60)).toNat = fmtTimestamp (now - 300)
    rw [show ((now : Int) + -(5 * 60)).toNat = now - 300 by omega]
  have e2 : (makeUnsignedAssertion issuerID userID referenceID now).timeNow =
      fmtTimestamp now := by
    show fmtTimestamp ((now : Int) + 0).toNat = fmtTimestamp now
    rw [show ((now : Int) + 0).toNat = now by omega]
  have e3 : (makeUnsignedAssertion issuerID userID referenceID now).timeAfter =
      fmtTimestamp (now + 600) := by
    show fmtTimestamp ((now : Int) + 10 * 60).toNat = fmtTimestamp (now + 600)
    rw [show ((now : Int) + 10 * 60).toNat = now + 600 by omega]
  rw [e1, e2, e3]
  exact ⟨timestampValue_fmtTimestamp (now - 300) (by omega),
    timestampValue_fmtTimestamp now (by omega),
    timestampValue_fmtTimestamp (now + 600) (by omega),
    by omega, by omega⟩

/-- C3 witness: the window built at the concrete instant 1700000000
(2023-11-14T22:13:20 UTC), via `makeSamlAssertion_validityWindow`. -/
theorem makeSamlAssertion_validityWindow_witness :
    (300 ≤ 1700000000 ∧ 1700000000 + 600 ≤ 253402300799) ∧
      (timestampValue (makeUnsignedAssertion "iss" "usr" "_ref" 1700000000).timeBefore =
          some (1700000000 - 300) ∧
        timestampValue (makeUnsignedAssertion "iss" "usr" "_ref" 1700000000).timeNow =
          some 1700000000 ∧
        timestampValue (makeUnsignedAssertion "iss" "usr" "_ref" 1700000000).timeAfter =
          some (1700000000 + 600) ∧
        1700000000 - 300 < 1700000000 ∧ 1700000000 < 1700000000 + 600) :=
  ⟨⟨by decide, by decide⟩,
   makeSamlAssertion_validityWindow "iss" "usr" "_ref" 1700000000
     (by decide) (by decide)⟩

end Intuit
